import Mathlib

/-!
Verification of the command-queueing and compositing engine declared in
src/Gosu/Graphics.hpp. Only the public header is present in the repository
snapshot; the implementation behind it (the transform stack, clip stack,
command queue, macro recorder and frame lifecycle) is modelled from the
specification document, faithful to its words, and the claims are settled
against that model. The one value fixed by the header itself is
MAX_TEXTURE_SIZE = 1024.
-/

namespace Gosu

/-- Modelled from the spec: a 2D affine transform (the spec's 4x4 homogeneous
matrix restricted to 2D affine use), stored as the 2x2 linear part plus a
translation vector. The spec's real scalars are embedded as integers, which
cover every coordinate the claims mention. -/
structure Transform where
  a : ℤ
  b : ℤ
  c : ℤ
  d : ℤ
  tx : ℤ
  ty : ℤ
deriving DecidableEq

/-- The identity transform, the implicit base of the transform stack. -/
def Transform.identity : Transform := ⟨1, 0, 0, 1, 0, 0⟩

/-- Apply an affine transform to a point. -/
def Transform.apply (t : Transform) (p : ℤ × ℤ) : ℤ × ℤ :=
  (t.a * p.1 + t.b * p.2 + t.tx, t.c * p.1 + t.d * p.2 + t.ty)

/-- Composition by matrix multiplication: `(t.comp u).apply p = t.apply (u.apply p)`. -/
def Transform.comp (t u : Transform) : Transform :=
  ⟨t.a * u.a + t.b * u.c, t.a * u.b + t.b * u.d,
   t.c * u.a + t.d * u.c, t.c * u.b + t.d * u.d,
   t.a * u.tx + t.b * u.ty + t.tx, t.c * u.tx + t.d * u.ty + t.ty⟩

/-- `Gosu::translate` from the header: a pure translation transform. -/
def translate (x y : ℤ) : Transform := ⟨1, 0, 0, 1, x, y⟩

/-- Modelled from the spec: an axis-aligned clip rectangle, kept as its two
corners so that the empty intersection is representable. -/
structure Rect where
  left : ℤ
  top : ℤ
  right : ℤ
  bottom : ℤ
deriving DecidableEq

/-- A rectangle from the (x, y, width, height) call arguments. -/
def Rect.ofXYWH (x y w h : ℤ) : Rect := ⟨x, y, x + w, y + h⟩

/-- Intersection of two rectangles. -/
def Rect.inter (r s : Rect) : Rect :=
  ⟨max r.left s.left, max r.top s.top, min r.right s.right, min r.bottom s.bottom⟩

/-- A rectangle is empty when it contains no interior point. -/
def Rect.isEmpty (r : Rect) : Prop := r.right ≤ r.left ∨ r.bottom ≤ r.top

instance (r : Rect) : Decidable r.isEmpty :=
  inferInstanceAs (Decidable (_ ∨ _))

/-- Modelled from the spec: transforming a clip rectangle into surface space
with the active transform; the axis-aligned bounding box of the four
transformed corners. -/
def Transform.applyRect (t : Transform) (r : Rect) : Rect :=
  let p1 := t.apply (r.left, r.top)
  let p2 := t.apply (r.right, r.top)
  let p3 := t.apply (r.left, r.bottom)
  let p4 := t.apply (r.right, r.bottom)
  ⟨min (min p1.1 p2.1) (min p3.1 p4.1), min (min p1.2 p2.2) (min p3.2 p4.2),
   max (max p1.1 p2.1) (max p3.1 p4.1), max (max p1.2 p2.2) (max p3.2 p4.2)⟩

/-- An RGBA color (`Gosu::Color` is consumed here only as a value). -/
structure Color where
  alpha : Nat
  red : Nat
  green : Nat
  blue : Nat
deriving DecidableEq

/-- `Color::BLACK`, the default clear color: fully opaque black. -/
def Color.BLACK : Color := ⟨255, 0, 0, 0⟩

/-- The alpha-compositing mode enumeration (default / additive / multiplicative). -/
inductive AlphaMode where
  | amDefault
  | amAdd
  | amMultiply
deriving DecidableEq

/-- The depth key type ZPos, an ordered scalar. -/
abbrev ZPos := ℤ

/-- Modelled from the spec: the discriminated payload of a queue entry, either
a drawing primitive (vertices, per-vertex colors, alpha mode) or a scheduled
native callback, identified here by an opaque number. -/
inductive Payload where
  | prim (verts : List (ℤ × ℤ)) (colors : List Color) (mode : AlphaMode)
  | native (functor : Nat)
deriving DecidableEq

/-- Modelled from the spec: a command-queue entry carrying the payload, the
depth key, and the captured effective transform and clip rectangle
(`none` meaning unclipped). -/
structure Entry where
  payload : Payload
  z : ZPos
  transform : Transform
  clip : Option Rect
deriving DecidableEq

/-- The queue order: depth keys ascending. -/
def entLE (a b : Entry) : Prop := a.z ≤ b.z

instance : DecidableRel entLE := fun a b => inferInstanceAs (Decidable (a.z ≤ b.z))

instance : IsTotal Entry entLE := ⟨fun a b => Int.le_total a.z b.z⟩

instance : IsTrans Entry entLE := ⟨fun _ _ _ h h2 => le_trans h h2⟩

/-- Modelled from the spec: draining the command queue is a stable sort by
depth key; entries sharing a depth key keep their submission (FIFO) order. -/
def drain (q : List Entry) : List Entry := q.insertionSort entLE

/-- Whether a captured clip is empty (`none` means unclipped, never empty). -/
def clipEmpty : Option Rect → Bool
  | none => false
  | some r => decide r.isEmpty

/-- Modelled from the spec: the backend submissions produced by a drain;
entries whose captured clip rectangle is empty are suppressed. -/
def submissions (q : List Entry) : List Entry :=
  (drain q).filter (fun e => !clipEmpty e.clip)

/-- The error taxonomy of the spec: precondition violations, stack underflow,
bounds violations and resource exhaustion, all reported synchronously. -/
inductive GraphicsError where
  | preconditionViolation
  | stackUnderflow
  | boundsViolation
  | resourceExhaustion
deriving DecidableEq

/-- A RenderBackend effect: either a clear of the target or the submission of
one drained entry. -/
inductive Emission where
  | clear (c : Color)
  | submit (e : Entry)
deriving DecidableEq

/-- Modelled from the spec: the state of a `Gosu::Graphics` object — the frame
bracket flag, the transform stack (head = active, base = identity), the clip
stack (head = effective clip), the command queue in submission order, and the
macro-recording buffer when a recording is active. -/
structure Graphics where
  physWidth : Nat
  physHeight : Nat
  isFullscreen : Bool
  insideFrame : Bool
  transforms : List Transform
  clips : List Rect
  queue : List Entry
  recording : Option (List Entry)
deriving DecidableEq

/-- The constructor `Graphics(physicalWidth, physicalHeight, fullscreen)`. -/
def Graphics.create (w h : Nat) (fs : Bool) : Graphics :=
  ⟨w, h, fs, false, [Transform.identity], [], [], none⟩

/-- The active transform: top of the transform stack (identity base). -/
def Graphics.activeTransform (s : Graphics) : Transform :=
  s.transforms.headD Transform.identity

/-- The effective clip: top of the clip stack, `none` when unclipped. -/
def Graphics.activeClip (s : Graphics) : Option Rect := s.clips.head?

/-- Modelled from the spec: `begin(clearWithColor)` fails on a reentrant call;
otherwise it resets the transform stack to identity-only, the clip stack to
empty and the command queue to empty, clears the target, and opens the
bracket. -/
def Graphics.begin (s : Graphics) (clearWithColor : Color) :
    Except GraphicsError (List Emission × Graphics) :=
  if s.insideFrame then .error .preconditionViolation
  else .ok ([Emission.clear clearWithColor],
    { s with insideFrame := true, transforms := [Transform.identity],
             clips := [], queue := [] })

/-- Modelled from the spec: `end()` requires an open bracket; it drains the
queue in depth order to the backend and closes the bracket. -/
def Graphics.endFrame (s : Graphics) : Except GraphicsError (List Emission × Graphics) :=
  if s.insideFrame then
    .ok ((submissions s.queue).map Emission.submit,
      { s with insideFrame := false, queue := [] })
  else .error .preconditionViolation

/-- Modelled from the spec: `flush()` is usable only inside a bracket; it
drains the queue exactly as `end` would but keeps the bracket open and leaves
the transform and clip stacks untouched. -/
def Graphics.flush (s : Graphics) : Except GraphicsError (List Emission × Graphics) :=
  if s.insideFrame then
    .ok ((submissions s.queue).map Emission.submit, { s with queue := [] })
  else .error .preconditionViolation

/-- Modelled from the spec: `pushTransform` composes the active transform with
the new one (nested local frame) and pushes the result. -/
def Graphics.pushTransform (s : Graphics) (t : Transform) : Graphics :=
  { s with transforms := (s.activeTransform.comp t) :: s.transforms }

/-- Modelled from the spec: `popTransform` fails with an underflow when the
stack would go below the identity base; otherwise it removes the top. -/
def Graphics.popTransform (s : Graphics) : Except GraphicsError Graphics :=
  match s.transforms with
  | [] => .error .stackUnderflow
  | [_] => .error .stackUnderflow
  | _ :: rest => .ok { s with transforms := rest }

/-- Modelled from the spec: `beginClipping` transforms the rectangle into
surface space with the active transform, intersects it with the current top
clip rectangle (unclipped when the stack is empty), and pushes the result. -/
def Graphics.beginClipping (s : Graphics) (x y w h : ℤ) : Graphics :=
  let surfRect := s.activeTransform.applyRect (Rect.ofXYWH x y w h)
  let newClip := match s.clips.head? with
    | none => surfRect
    | some c => surfRect.inter c
  { s with clips := newClip :: s.clips }

/-- Modelled from the spec: `endClipping` pops the clip stack, failing with an
underflow when it is empty. -/
def Graphics.endClipping (s : Graphics) : Except GraphicsError Graphics :=
  match s.clips with
  | [] => .error .stackUnderflow
  | _ :: rest => .ok { s with clips := rest }

/-- Modelled from the spec: enqueue a command at a depth, capturing the active
transform and clip; while a recording is active the entry is diverted into the
recording buffer instead of the frame queue. -/
def Graphics.enqueue (s : Graphics) (p : Payload) (z : ZPos) : Graphics :=
  let e : Entry := ⟨p, z, s.activeTransform, s.activeClip⟩
  match s.recording with
  | some buf => { s with recording := some (buf ++ [e]) }
  | none => { s with queue := s.queue ++ [e] }

/-- `drawLine` from the header, routed through the queue. -/
def Graphics.drawLine (s : Graphics) (x1 y1 : ℤ) (c1 : Color) (x2 y2 : ℤ) (c2 : Color)
    (z : ZPos) (mode : AlphaMode) : Graphics :=
  s.enqueue (Payload.prim [(x1, y1), (x2, y2)] [c1, c2] mode) z

/-- `drawTriangle` from the header, routed through the queue. -/
def Graphics.drawTriangle (s : Graphics) (x1 y1 : ℤ) (c1 : Color) (x2 y2 : ℤ) (c2 : Color)
    (x3 y3 : ℤ) (c3 : Color) (z : ZPos) (mode : AlphaMode) : Graphics :=
  s.enqueue (Payload.prim [(x1, y1), (x2, y2), (x3, y3)] [c1, c2, c3] mode) z

/-- `drawQuad` from the header, routed through the queue. -/
def Graphics.drawQuad (s : Graphics) (x1 y1 : ℤ) (c1 : Color) (x2 y2 : ℤ) (c2 : Color)
    (x3 y3 : ℤ) (c3 : Color) (x4 y4 : ℤ) (c4 : Color) (z : ZPos) (mode : AlphaMode) : Graphics :=
  s.enqueue (Payload.prim [(x1, y1), (x2, y2), (x3, y3), (x4, y4)] [c1, c2, c3, c4] mode) z

/-- `scheduleGL` from the header: a deferred native callback queued at a depth
with the same ordering rules as draw commands. -/
def Graphics.scheduleGL (s : Graphics) (functor : Nat) (z : ZPos) : Graphics :=
  s.enqueue (Payload.native functor) z

/-- Modelled from the spec: `beginRecording` fails when a recording is already
active (non-nestable); otherwise it opens an empty recording buffer. -/
def Graphics.beginRecording (s : Graphics) : Except GraphicsError Graphics :=
  match s.recording with
  | some _ => .error .preconditionViolation
  | none => .ok { s with recording := some [] }

/-- Modelled from the spec: the sealed drawable artifact of a recording: an immutable command list plus
the width/height metadata given at seal time. -/
structure Drawable where
  width : ℤ
  height : ℤ
  commands : List Entry
deriving DecidableEq

/-- Modelled from the spec: `endRecording(width, height)` fails when no
recording is active; otherwise it seals the buffer into a macro whose
width/height are exactly the given metadata. -/
def Graphics.endRecording (s : Graphics) (width height : ℤ) :
    Except GraphicsError (Drawable × Graphics) :=
  match s.recording with
  | none => .error .preconditionViolation
  | some buf => .ok (⟨width, height, buf⟩, { s with recording := none })

/-- Modelled from the spec: replaying a macro re-emits its stored commands into
the caller's queue, each transform composed with the replay transform and each
depth offset by the replay depth. -/
def Drawable.draw (m : Drawable) (t : Transform) (zOffset : ZPos) (s : Graphics) : Graphics :=
  { s with queue := s.queue ++
      m.commands.map (fun e => { e with transform := t.comp e.transform, z := e.z + zOffset }) }

/-- The vertex positions of an entry after its captured transform is applied. -/
def Entry.effectiveVerts (e : Entry) : List (ℤ × ℤ) :=
  match e.payload with
  | .prim verts _ _ => verts.map e.transform.apply
  | .native _ => []

/-- A pixel source consumed by `createImage`: only its bounds matter here. -/
structure Bitmap where
  width : Nat
  height : Nat

/-- An image handle: the image dimensions and the dimensions of the texture
allocated for it. -/
structure ImageData where
  width : Nat
  height : Nat
  texWidth : Nat
  texHeight : Nat
deriving DecidableEq

/-- `MAX_TEXTURE_SIZE` from the header: the maximum size of a texture that
will be allocated internally. -/
def MAX_TEXTURE_SIZE : Nat := 1024

/-- Modelled from the spec: `createImage` fails with a bounds violation when
the requested sub-rectangle lies outside the source bitmap, and with resource
exhaustion when the requested texture would exceed the maximum supported
texture dimension; no partial image is created on failure. -/
def createImage (src : Bitmap) (srcX srcY srcWidth srcHeight : Nat) (_borderFlags : Nat) :
    Except GraphicsError ImageData :=
  if srcX + srcWidth ≤ src.width ∧ srcY + srcHeight ≤ src.height then
    if srcWidth ≤ MAX_TEXTURE_SIZE ∧ srcHeight ≤ MAX_TEXTURE_SIZE then
      .ok ⟨srcWidth, srcHeight, srcWidth, srcHeight⟩
    else .error .resourceExhaustion
  else .error .boundsViolation

/-- Inserting an entry whose depth key equals `d` appends it to the depth-`d`
class: every element the insertion walks past has a strictly smaller key. -/
lemma filter_orderedInsert_of_eq (e : Entry) (l : List Entry) (d : ZPos) (he : e.z = d) :
    (List.orderedInsert entLE e l).filter (fun x => decide (x.z = d)) =
      e :: l.filter (fun x => decide (x.z = d)) := by
  induction l with
  | nil => simp [List.orderedInsert, he]
  | cons b l ih =>
    by_cases h : entLE e b
    · simp [List.orderedInsert, h, List.filter_cons, he]
    · have hlt : b.z < e.z := lt_of_not_le h
      have hbz : ¬ (b.z = d) := by
        intro hb
        rw [hb, he] at hlt
        exact lt_irrefl d hlt
      simp [List.orderedInsert, h, List.filter_cons, hbz, ih]

/-- Inserting an entry whose depth key differs from `d` leaves the depth-`d`
class untouched. -/
lemma filter_orderedInsert_of_ne (e : Entry) (l : List Entry) (d : ZPos) (he : ¬ e.z = d) :
    (List.orderedInsert entLE e l).filter (fun x => decide (x.z = d)) =
      l.filter (fun x => decide (x.z = d)) := by
  rw [List.orderedInsert_eq_take_drop, List.filter_append, List.filter_cons,
    if_neg (by simp [he]), ← List.filter_append, List.takeWhile_append_dropWhile]

/-- Stability of the drain: each equal-depth class comes out in submission
(FIFO) order. -/
lemma filter_drain (q : List Entry) (d : ZPos) :
    (drain q).filter (fun x => decide (x.z = d)) = q.filter (fun x => decide (x.z = d)) := by
  induction q with
  | nil => rfl
  | cons b l ih =>
    simp only [drain] at ih ⊢
    show (List.orderedInsert entLE b (List.insertionSort entLE l)).filter _ = _
    by_cases h : b.z = d
    · rw [filter_orderedInsert_of_eq _ _ _ h, List.filter_cons]
      simp [h, ih]
    · rw [filter_orderedInsert_of_ne _ _ _ h, List.filter_cons]
      simp [h, ih]

/-- C1: for every sequence of enqueues followed by a drain, the emitted order
is non-decreasing in depth key, the emitted entries are exactly the enqueued
ones, and entries sharing a depth key are emitted in their submission (FIFO)
order. -/
theorem claim_C1_drain_depth_ordered_fifo_stable (q : List Entry) :
    List.Sorted entLE (drain q) ∧ (drain q).Perm q ∧
      ∀ d : ZPos, (drain q).filter (fun e => decide (e.z = d)) =
        q.filter (fun e => decide (e.z = d)) :=
  ⟨List.sorted_insertionSort entLE q, List.perm_insertionSort entLE q,
   fun d => filter_drain q d⟩

/-- C3: pushing two transforms and popping twice restores the whole state, in
particular the active transform that held before the first push; the
hypothesis is the stack invariant (the identity base is always present). -/
theorem claim_C3_push_push_pop_pop (T1 T2 : Transform) (s : Graphics)
    (h : s.transforms ≠ []) :
    (((s.pushTransform T1).pushTransform T2).popTransform).bind Graphics.popTransform =
      Except.ok s := by
  obtain ⟨t, ts, hts⟩ := List.exists_cons_of_ne_nil h
  simp only [Graphics.pushTransform, Graphics.popTransform, hts]
  rw [Except.bind]
  simp only [Graphics.popTransform]
  rw [← hts]

/-- Witness for C3 at a concrete state and concrete transforms. -/
theorem claim_C3_witness :
    (Graphics.create 640 480 false).transforms ≠ [] ∧
      ((((Graphics.create 640 480 false).pushTransform (translate 3 4)).pushTransform
          (translate 5 6)).popTransform).bind Graphics.popTransform =
        Except.ok (Graphics.create 640 480 false) :=
  ⟨by decide, claim_C3_push_push_pop_pop (translate 3 4) (translate 5 6) _ (by decide)⟩

/-- C7: `begin` fails exactly on a reentrant call; otherwise it succeeds,
resets the transform stack to identity-only, the clip stack and the command
queue to empty, and clears the target to the given color, whose default
`Color::BLACK` is fully opaque black. -/
theorem claim_C7_begin_reentrant_error_and_reset (c : Color) (s : Graphics) :
    (s.insideFrame = true →
      s.begin c = Except.error GraphicsError.preconditionViolation) ∧
    (s.insideFrame = false →
      s.begin c = Except.ok ([Emission.clear c],
        { s with insideFrame := true, transforms := [Transform.identity],
                 clips := [], queue := [] })) ∧
    Color.BLACK = ⟨255, 0, 0, 0⟩ := by
  refine ⟨fun h => ?_, fun h => ?_, rfl⟩
  · simp [Graphics.begin, h]
  · simp [Graphics.begin, h]

/-- Witness for C7: both branches discharged at concrete states, the open
bracket rejecting a reentrant `begin` and the closed bracket accepting one
with the default clear color. -/
theorem claim_C7_witness :
    ((⟨1, 1, false, true, [Transform.identity], [], [], none⟩ : Graphics).insideFrame = true ∧
      (⟨1, 1, false, true, [Transform.identity], [], [], none⟩ : Graphics).begin Color.BLACK =
        Except.error GraphicsError.preconditionViolation) ∧
    ((Graphics.create 640 480 false).insideFrame = false ∧
      (Graphics.create 640 480 false).begin Color.BLACK =
        Except.ok ([Emission.clear Color.BLACK],
          { (Graphics.create 640 480 false) with
              insideFrame := true,
              transforms := [Transform.identity],
              clips := [],
              queue := [] })) :=
  ⟨⟨rfl, (claim_C7_begin_reentrant_error_and_reset Color.BLACK _).1 rfl⟩,
   ⟨rfl, (claim_C7_begin_reentrant_error_and_reset Color.BLACK _).2.1 rfl⟩⟩

/-- C8: `end()` without an unmatched `begin()` fails synchronously with a
precondition violation; the error result carries no backend emissions, so the
failing call produces zero RenderBackend submissions. -/
theorem claim_C8_end_without_begin_fails (s : Graphics) (h : s.insideFrame = false) :
    s.endFrame = Except.error GraphicsError.preconditionViolation ∧
      ∀ em g, s.endFrame ≠ Except.ok (em, g) := by
  constructor
  · simp [Graphics.endFrame, h]
  · intro em g hok
    rw [Graphics.endFrame, if_neg (by simp [h])] at hok
    exact Except.noConfusion hok

/-- Witness for C8 at a freshly created graphics object, which is outside any
begin/end bracket. -/
theorem claim_C8_witness :
    (Graphics.create 640 480 false).insideFrame = false ∧
      ((Graphics.create 640 480 false).endFrame =
          Except.error GraphicsError.preconditionViolation ∧
        ∀ em g, (Graphics.create 640 480 false).endFrame ≠ Except.ok (em, g)) :=
  ⟨rfl, claim_C8_end_without_begin_fails _ rfl⟩

/-- C9: `createImage` fails with a bounds violation, reported synchronously as
the call's result, whenever the requested sub-rectangle lies outside the
source bitmap; no image value is produced by the failing call. -/
theorem claim_C9_createImage_bounds_violation (src : Bitmap)
    (x y w h flags : Nat) (hout : ¬ (x + w ≤ src.width ∧ y + h ≤ src.height)) :
    createImage src x y w h flags = Except.error GraphicsError.boundsViolation ∧
      ∀ img, createImage src x y w h flags ≠ Except.ok img := by
  constructor
  · simp [createImage, hout]
  · intro img hok
    rw [createImage, if_neg hout] at hok
    exact Except.noConfusion hok

/-- Witness for C9: a 6-pixel-wide strip requested at x = 5 from a 10-pixel
bitmap overruns the right edge. -/
theorem claim_C9_witness :
    (¬ (5 + 6 ≤ (Bitmap.mk 10 10).width ∧ 0 + 10 ≤ (Bitmap.mk 10 10).height)) ∧
      (createImage ⟨10, 10⟩ 5 0 6 10 0 = Except.error GraphicsError.boundsViolation ∧
        ∀ img, createImage ⟨10, 10⟩ 5 0 6 10 0 ≠ Except.ok img) :=
  ⟨by decide, claim_C9_createImage_bounds_violation ⟨10, 10⟩ 5 0 6 10 0 (by decide)⟩

/-- C10: the header fixes `MAX_TEXTURE_SIZE = 1024`, and every `createImage`
call that succeeds allocated a texture whose width and height are at most
that bound. -/
theorem claim_C10_max_texture_size (src : Bitmap) (x y w h flags : Nat)
    (img : ImageData) (hok : createImage src x y w h flags = Except.ok img) :
    MAX_TEXTURE_SIZE = 1024 ∧
      img.texWidth ≤ MAX_TEXTURE_SIZE ∧ img.texHeight ≤ MAX_TEXTURE_SIZE := by
  refine ⟨rfl, ?_⟩
  rw [createImage] at hok
  by_cases h1 : x + w ≤ src.width ∧ y + h ≤ src.height
  · rw [if_pos h1] at hok
    by_cases h2 : w ≤ MAX_TEXTURE_SIZE ∧ h ≤ MAX_TEXTURE_SIZE
    · rw [if_pos h2] at hok
      cases hok
      exact h2
    · rw [if_neg h2] at hok
      exact Except.noConfusion hok
  · rw [if_neg h1] at hok
    exact Except.noConfusion hok

/-- Witness for C10 at a concrete successful `createImage` call. -/
theorem claim_C10_witness :
    createImage ⟨100, 100⟩ 0 0 50 50 0 = Except.ok ⟨50, 50, 50, 50⟩ ∧
      (MAX_TEXTURE_SIZE = 1024 ∧
        (ImageData.mk 50 50 50 50).texWidth ≤ MAX_TEXTURE_SIZE ∧
        (ImageData.mk 50 50 50 50).texHeight ≤ MAX_TEXTURE_SIZE) :=
  ⟨rfl, claim_C10_max_texture_size ⟨100, 100⟩ 0 0 50 50 0 ⟨50, 50, 50, 50⟩ rfl⟩

/-- Popping the transform stack commutes with replacing the queue: the pop
outcome depends only on the stacks, not on the queued commands. -/
lemma popTransform_queue_update (s : Graphics) (q : List Entry) :
    Graphics.popTransform { s with queue := q } =
      (s.popTransform).map (fun g => { g with queue := q }) := by
  obtain ⟨pw, ph, fs, inf, trs, cls, qu, rec⟩ := s
  cases trs with
  | nil => rfl
  | cons t ts =>
    cases ts with
    | nil => rfl
    | cons t2 ts2 => rfl

/-- Popping the clip stack commutes with replacing the queue. -/
lemma endClipping_queue_update (s : Graphics) (q : List Entry) :
    Graphics.endClipping { s with queue := q } =
      (s.endClipping).map (fun g => { g with queue := q }) := by
  obtain ⟨pw, ph, fs, inf, trs, cls, qu, rec⟩ := s
  cases cls with
  | nil => rfl
  | cons c cs => rfl

/-- C5: inside an open bracket, `flush` emits exactly the submissions `end`
would emit, empties the command queue, but keeps the bracket open and the
transform and clip stacks untouched — a later `popTransform` or `endClipping`
acts on the stack state from before the flush. -/
theorem claim_C5_flush_drains_queue_keeps_stacks (s : Graphics) (h : s.insideFrame = true) :
    s.flush = Except.ok ((submissions s.queue).map Emission.submit,
        { s with queue := [] }) ∧
      s.endFrame = Except.ok ((submissions s.queue).map Emission.submit,
        { s with queue := [], insideFrame := false }) ∧
      ({ s with queue := ([] : List Entry) }).insideFrame = true ∧
      ({ s with queue := ([] : List Entry) }).transforms = s.transforms ∧
      ({ s with queue := ([] : List Entry) }).clips = s.clips ∧
      Graphics.popTransform { s with queue := ([] : List Entry) } =
        (s.popTransform).map (fun g => { g with queue := ([] : List Entry) }) ∧
      Graphics.endClipping { s with queue := ([] : List Entry) } =
        (s.endClipping).map (fun g => { g with queue := ([] : List Entry) }) :=
  ⟨by simp [Graphics.flush, h], by simp [Graphics.endFrame, h], h, rfl, rfl,
   popTransform_queue_update s [], endClipping_queue_update s []⟩

/-- A mid-frame state used to witness C5: open bracket, one pushed transform,
one clip rectangle, two queued commands. -/
def flushState : Graphics :=
  ⟨640, 480, false, true, [translate 1 2, Transform.identity], [Rect.ofXYWH 0 0 5 5],
   [⟨Payload.native 3, 2, Transform.identity, none⟩,
    ⟨Payload.native 4, 1, Transform.identity, none⟩], none⟩

/-- Witness for C5 at the concrete mid-frame state. -/
theorem claim_C5_witness :
    flushState.insideFrame = true ∧
      (flushState.flush = Except.ok ((submissions flushState.queue).map Emission.submit,
          { flushState with queue := [] }) ∧
        flushState.endFrame = Except.ok ((submissions flushState.queue).map Emission.submit,
          { flushState with queue := [], insideFrame := false }) ∧
        ({ flushState with queue := ([] : List Entry) }).insideFrame = true ∧
        ({ flushState with queue := ([] : List Entry) }).transforms = flushState.transforms ∧
        ({ flushState with queue := ([] : List Entry) }).clips = flushState.clips ∧
        Graphics.popTransform { flushState with queue := ([] : List Entry) } =
          (flushState.popTransform).map (fun g => { g with queue := ([] : List Entry) }) ∧
        Graphics.endClipping { flushState with queue := ([] : List Entry) } =
          (flushState.endClipping).map (fun g => { g with queue := ([] : List Entry) })) :=
  ⟨rfl, claim_C5_flush_drains_queue_keeps_stacks flushState rfl⟩

/-- A fresh begun frame used by the clipping scenario of C4. -/
def clipBase : Graphics := ⟨640, 480, false, true, [Transform.identity], [], [], none⟩

/-- The scenario state after `beginClipping(0,0,10,10)`. -/
def clipS1 : Graphics := clipBase.beginClipping 0 0 10 10

/-- The scenario state after a nested `beginClipping(5,5,10,10)`. -/
def clipS2 : Graphics := clipS1.beginClipping 5 5 10 10

/-- The scenario state after a further nested clip entirely outside. -/
def clipS3 : Graphics := clipS2.beginClipping 20 20 5 5

/-- A single queued entry with an empty captured clip yields no backend
submissions. -/
lemma submissions_single_of_empty_clip (e : Entry) (he : clipEmpty e.clip = true) :
    submissions [e] = [] := by
  simp [submissions, drain, List.insertionSort, List.orderedInsert, List.filter, he]

/-- C4: nested clip rectangles intersect — after clipping to (0,0,10,10) and
then (5,5,10,10) the effective clip is (5,5,5,5); a further nested clip
entirely outside leaves an empty effective clip, and every draw command issued
under it produces zero RenderBackend submissions. -/
theorem claim_C4_nested_clipping_intersects_and_suppresses :
    clipS2.activeClip = some (Rect.ofXYWH 5 5 5 5) ∧
      (∃ r, clipS3.activeClip = some r ∧ r.isEmpty) ∧
      ∀ (p : Payload) (z : ZPos), submissions ((clipS3.enqueue p z).queue) = [] := by
  refine ⟨by decide, ⟨Rect.mk 20 20 10 10, by decide, by decide⟩, fun p z => ?_⟩
  have hq : (clipS3.enqueue p z).queue =
      [⟨p, z, clipS3.activeTransform, clipS3.activeClip⟩] := rfl
  rw [hq]
  exact submissions_single_of_empty_clip _
    (show clipEmpty clipS3.activeClip = true by decide)

/-- A fresh begun frame used by the recording scenario of C2, both as the
recording surface and as the replay target. -/
def recStart : Graphics := ⟨640, 480, false, true, [Transform.identity], [], [], none⟩

/-- The C2 scenario: start a recording, record triangle A at depth 1 and
triangle B at depth 2, and seal with the given width/height metadata. -/
def recResultWH (w h : ℤ) : Except GraphicsError (Drawable × Graphics) :=
  (recStart.beginRecording).bind (fun g =>
    ((g.drawTriangle 0 0 Color.BLACK 10 0 Color.BLACK 0 10 Color.BLACK 1
        AlphaMode.amDefault).drawTriangle 3 4 Color.BLACK 5 6 Color.BLACK 7 8 Color.BLACK 2
        AlphaMode.amDefault).endRecording w h)

/-- The two commands the C2 scenario records, in submission order. -/
def recCommands : List Entry :=
  [⟨Payload.prim [(0, 0), (10, 0), (0, 10)] [Color.BLACK, Color.BLACK, Color.BLACK]
      AlphaMode.amDefault, 1, Transform.identity, none⟩,
   ⟨Payload.prim [(3, 4), (5, 6), (7, 8)] [Color.BLACK, Color.BLACK, Color.BLACK]
      AlphaMode.amDefault, 2, Transform.identity, none⟩]

/-- C2: sealing the recording with any width/height yields a drawable whose
width/height are exactly that metadata and whose command list is the recorded
one, unclipped and unscaled by the metadata; replaying the (50,50)-sealed
drawable at Translate(100,0) with depth offset 5 into a fresh queue and
draining yields exactly the two commands, positionally shifted by (100,0),
with depths 6 and 7 in that order. -/
theorem claim_C2_recording_round_trip :
    (∀ w h : ℤ, recResultWH w h = Except.ok (⟨w, h, recCommands⟩, recStart)) ∧
      (drain ((Drawable.mk 50 50 recCommands).draw (translate 100 0) 5 recStart).queue).map
          (fun e => (e.z, e.effectiveVerts)) =
        [(6, [(100, 0), (110, 0), (100, 10)]), (7, [(103, 4), (105, 6), (107, 8)])] :=
  ⟨fun w h => rfl, by decide⟩

/-- One frame-level call of the C6 scenario: a scheduled native callback or a
draw command, each at a depth. -/
inductive FrameCall where
  | sched (functor : Nat) (z : ZPos)
  | prim (verts : List (ℤ × ℤ)) (colors : List Color) (mode : AlphaMode) (z : ZPos)
deriving DecidableEq

/-- The depth key of a frame call. -/
def FrameCall.z : FrameCall → ZPos
  | .sched _ z => z
  | .prim _ _ _ z => z

/-- Issue one frame call against the graphics object. -/
def applyCall (s : Graphics) : FrameCall → Graphics
  | .sched f z => s.scheduleGL f z
  | .prim v c m z => s.enqueue (Payload.prim v c m) z

/-- Issue a list of frame calls in order. -/
def runCalls : Graphics → List FrameCall → Graphics
  | s, [] => s
  | s, c :: cs => runCalls (applyCall s c) cs

/-- The queue entry a frame call produces in state `s`. -/
def callEntry (s : Graphics) : FrameCall → Entry
  | .sched f z => ⟨Payload.native f, z, s.activeTransform, s.activeClip⟩
  | .prim v c m z => ⟨Payload.prim v c m, z, s.activeTransform, s.activeClip⟩

lemma callEntry_z (s : Graphics) (c : FrameCall) : (callEntry s c).z = c.z := by
  cases c <;> rfl

lemma callEntry_queue_update (s : Graphics) (q : List Entry) (c : FrameCall) :
    callEntry { s with queue := q } c = callEntry s c := by
  cases c <;> rfl

/-- Outside a recording, each frame call appends its entry to the queue. -/
lemma applyCall_of_not_recording (s : Graphics) (c : FrameCall) (hrec : s.recording = none) :
    applyCall s c = { s with queue := s.queue ++ [callEntry s c] } := by
  cases c <;> simp [applyCall, Graphics.scheduleGL, Graphics.enqueue, callEntry, hrec]

/-- Outside a recording, running frame calls appends their entries in
submission order; none of the calls disturbs the stacks, so every entry is
captured with the same transform and clip. -/
lemma runCalls_queue (cs : List FrameCall) (s : Graphics) (hrec : s.recording = none) :
    (runCalls s cs).queue = s.queue ++ cs.map (callEntry s) := by
  induction cs generalizing s with
  | nil => simp [runCalls]
  | cons c cs ih =>
    show (runCalls (applyCall s c) cs).queue = _
    rw [applyCall_of_not_recording s c hrec]
    rw [ih { s with queue := s.queue ++ [callEntry s c] } hrec]
    have hmap : cs.map (callEntry { s with queue := s.queue ++ [callEntry s c] }) =
        cs.map (callEntry s) :=
      List.map_congr_left (fun x _ => callEntry_queue_update s _ x)
    rw [hmap, List.append_assoc]
    rfl

/-- C6: for every interleaving of scheduled native callbacks and draw commands
at pairwise distinct depths in one frame, the drain is strictly ascending in
depth regardless of submission order, and each call's entry — in particular
each scheduled callback — appears exactly once in the drained output. -/
theorem claim_C6_interleaved_drain_strict_depth_order (s : Graphics) (cs : List FrameCall)
    (hrec : s.recording = none) (hq : s.queue = [])
    (hz : (cs.map FrameCall.z).Nodup) :
    (drain (runCalls s cs).queue).Pairwise (fun a b => a.z < b.z) ∧
      ∀ c ∈ cs, (drain (runCalls s cs).queue).count (callEntry s c) = 1 := by
  have hQ : (runCalls s cs).queue = cs.map (callEntry s) := by
    rw [runCalls_queue cs s hrec, hq, List.nil_append]
  rw [hQ]
  have hperm : (drain (cs.map (callEntry s))).Perm (cs.map (callEntry s)) :=
    List.perm_insertionSort entLE _
  have hsorted : List.Sorted entLE (drain (cs.map (callEntry s))) :=
    List.sorted_insertionSort entLE _
  have hzcs : cs.Pairwise (fun a b => a.z ≠ b.z) := (List.pairwise_map).mp hz
  have hzL : (cs.map (callEntry s)).Pairwise (fun a b => a.z ≠ b.z) :=
    (List.pairwise_map).mpr (hzcs.imp (fun h => by
      rw [callEntry_z, callEntry_z]; exact h))
  have hzD : (drain (cs.map (callEntry s))).Pairwise (fun a b => a.z ≠ b.z) :=
    (List.Perm.pairwise_iff (fun h => h.symm) hperm).mpr hzL
  constructor
  · exact (hsorted.and hzD).imp (fun h => lt_of_le_of_ne h.1 h.2)
  · intro c hc
    have hnd : (cs.map (callEntry s)).Nodup :=
      hzL.imp (fun h heq => h (congrArg Entry.z heq))
    have hmem : callEntry s c ∈ cs.map (callEntry s) := List.mem_map_of_mem _ hc
    rw [hperm.count_eq]
    exact List.count_eq_one_of_mem hnd hmem

/-- The fresh begun frame of the C6 witness. -/
def schedState : Graphics := ⟨1, 1, false, true, [Transform.identity], [], [], none⟩

/-- The C6 witness interleaving: two scheduled callbacks and two draw commands
submitted out of depth order. -/
def schedCalls : List FrameCall :=
  [FrameCall.sched 7 3, FrameCall.prim [(0, 0)] [Color.BLACK] AlphaMode.amDefault 1,
   FrameCall.sched 8 4, FrameCall.prim [(1, 1)] [Color.BLACK] AlphaMode.amDefault 2]

/-- Witness for C6 at the concrete interleaving. -/
theorem claim_C6_witness :
    (schedState.recording = none ∧ schedState.queue = [] ∧
        (schedCalls.map FrameCall.z).Nodup) ∧
      ((drain (runCalls schedState schedCalls).queue).Pairwise (fun a b => a.z < b.z) ∧
        ∀ c ∈ schedCalls,
          (drain (runCalls schedState schedCalls).queue).count (callEntry schedState c) = 1) :=
  ⟨⟨rfl, rfl, by decide⟩,
   claim_C6_interleaved_drain_strict_depth_order schedState schedCalls rfl rfl (by decide)⟩

end Gosu
